import Mathlib

/-!
Verification of the NLP-A2 language-model web app.

The repository has one source file, `app/app.py`: a Flask app that loads a
vocabulary and an LSTM language model once at module import, and exposes a
single route `index` that, on POST, reads the form fields
`prompt`, `max_seq_len`, `temperature`, `seed`, calls
`generate(prompt, max_seq_len, temperature, model, tokenizer, vocab, device, seed)`
(imported from the `lstm` module, which is not part of the sources here) and
renders `home.html` with `output=' '.join(output)` and `show_text="block"`;
on GET it renders `home.html` with `show_text="none"`.

The generator itself (`lstm.generate`), the vocabulary, the tokenizer and the
sampler are modelled from the specification, since the `lstm` module is not
among the sources.  Python floats are embedded as rationals, Python ints as
`Int`, and the seeded torch random generator as an explicit linear-congruential
pseudo-random source threaded through the decode loop.
-/

/-- Modelled from the spec: the Vocabulary external collaborator — an immutable
mapping from string tokens to integer ids (`stoi`), its inverse (`itos`), a
reserved unknown-id, a reserved stop-id, and an optional start-of-sequence id
("defined by the Vocabulary if one exists"). -/
structure Vocabulary where
  stoi : List (String × Nat)
  itos : List String
  unk_id : Nat
  stop_id : Nat
  sos_id : Option Nat

/-- Modelled from the spec: `Vocabulary.encode(token) -> id`; a token absent
from the mapping encodes to the reserved unknown-id, without error. -/
def Vocabulary.encode (v : Vocabulary) (tok : String) : Nat :=
  (v.stoi.lookup tok).getD v.unk_id

/-- Modelled from the spec: `Vocabulary.decode(id) -> token`, the inverse
mapping; ids are always drawn from the fixed-size vocabulary, so the default
is never reached on well-formed inputs. -/
def Vocabulary.decode (v : Vocabulary) (id : Nat) : String :=
  v.itos.getD id ""

/-- Modelled from the spec: the RecurrentLanguageModel external collaborator.
`step` takes a token id and a recurrent hidden state and returns unnormalized
scores (logits, one per vocabulary entry) and the updated hidden state;
`initHidden` is the fresh (zeroed) per-call state. -/
structure RecurrentLanguageModel (H : Type) where
  initHidden : H
  step : Nat → H → List ℚ × H

/-- Modelled from the spec: the RandomSource — a pseudo-random generator
deterministically seeded from `seed`, call-local.  Embedded as a
linear-congruential generator over `Nat` modulo 2^32. -/
structure RandomSource where
  state : Nat

/-- Modelled from the spec: seeding the RandomSource deterministically
from the integer `seed`. -/
def RandomSource.ofSeed (seed : Int) : RandomSource :=
  ⟨(seed.emod 4294967296).toNat⟩

/-- Rational addition written out on numerators and denominators.  The
library's `Rat.add` is `irreducible`, so this explicit form is used
wherever a closed run of the program must evaluate; `qadd_eq_add` below
proves it is exactly addition. -/
def qadd (a b : ℚ) : ℚ :=
  mkRat (a.num * (b.den : Int) + b.num * (a.den : Int)) (a.den * b.den)

/-- Rational division written out on numerators and denominators.
`Rat.div` itself is kept behind an `irreducible` inverse in the library;
this explicit form evaluates by kernel reduction, and `qdiv_eq_div` below
proves it is exactly division (with the `x / 0 = 0` convention). -/
def qdiv (a b : ℚ) : ℚ :=
  if b.num < 0 then mkRat (-(a.num * (b.den : Int))) (a.den * b.num.natAbs)
  else mkRat (a.num * (b.den : Int)) (a.den * b.num.natAbs)

/-- The sum of a list of rationals, via `qadd`; `qsum_eq_sum` below proves
it equal to `List.sum`. -/
def qsum (l : List ℚ) : ℚ :=
  l.foldr qadd 0

/-- Modelled from the spec: one uniform draw in `[0,1)` (the current state
divided by the modulus 2^32) together with the successor generator state. -/
def RandomSource.next (r : RandomSource) : ℚ × RandomSource :=
  let s := (1664525 * r.state + 1013904223) % 4294967296
  (mkRat s 4294967296, ⟨s⟩)

/-- Modelled from the spec: normalization of the scaled logits into a
probability distribution via exponentiation and sum-normalization; the
exponentiation itself belongs to the external numeric engine, so it is a
parameter `expf`. -/
def softmax (expf : ℚ → ℚ) (xs : List ℚ) : List ℚ :=
  let es := xs.map expf
  es.map (fun e => qdiv e (qsum es))

/-- Modelled from the spec: the Sampler's inverse-CDF scan.  `acc` is the
cumulative probability of the entries already passed; the result is the
offset, within `probs`, of the first entry whose cumulative sum exceeds `u`. -/
def sampleFrom (u : ℚ) : List ℚ → ℚ → Nat
  | [], _ => 0
  | p :: rest, acc =>
    if u < qadd acc p then 0 else sampleFrom u rest (qadd acc p) + 1

/-- Modelled from the spec: `sample(probabilities, u) -> index` — accumulate
the probabilities in vocabulary-index order and return the smallest index
whose cumulative sum exceeds the uniform draw `u`. -/
def sample (probs : List ℚ) (u : ℚ) : Nat :=
  sampleFrom u probs 0

/-- Cumulative probability of `probs` up to and including index `i`. -/
def cumsum (probs : List ℚ) (i : Nat) : ℚ :=
  (probs.take (i + 1)).sum

/-- Modelled from the spec: the error taxonomy of the Generator. -/
inductive GenError where
  | invalidConfiguration
  | modelEvaluationFailure
deriving DecidableEq, Repr

/-- Modelled from the spec: the decode loop of `Generator.generate`
(steps 4a–4f).  Each iteration feeds the current last token id and hidden
state to the model, scales the logits by `1/temperature`, normalizes them,
draws one token id by inverse-CDF sampling against one uniform value, and
appends it; if the drawn id equals `stopId` the loop terminates immediately.
The returned list is the sequence of drawn ids, the trailing stop id
included when one was drawn; its length is the number of model evaluation
steps performed. -/
def decodeLoop {H : Type} (M : RecurrentLanguageModel H) (expf : ℚ → ℚ)
    (stopId : Nat) (temperature : ℚ) :
    Nat → Nat → H → RandomSource → List Nat
  | 0, _, _, _ => []
  | fuel + 1, lastTok, h, rng =>
    let st := M.step lastTok h
    let probs := softmax expf (st.1.map (fun x => qdiv x temperature))
    let d := rng.next
    let t := sample probs d.1
    if t = stopId then [t]
    else t :: decodeLoop M expf stopId temperature fuel t st.2 d.2

/-- Modelled from the spec (step 4f / step 5): a trailing stop id is excluded
from the decoded output. -/
def stripStop (stopId : Nat) (ids : List Nat) : List Nat :=
  if ids.getLast? = some stopId then ids.dropLast else ids

/-- Modelled from the spec: `Generator.generate`, instrumented with the number
of model evaluation steps performed (second component).  It rejects
`temperature <= 0` and `max_seq_len < 1` with `InvalidConfiguration` before
any model evaluation; otherwise it tokenizes and encodes the prompt, runs the
decode loop from the last prompt token (or the vocabulary's start-of-sequence
convention for an empty prompt), strips a trailing stop id, and decodes the
newly generated ids back to string tokens. -/
def generateRun {H : Type} (M : RecurrentLanguageModel H) (expf : ℚ → ℚ)
    (tokenize : String → List String) (v : Vocabulary)
    (prompt : String) (max_seq_len : Int) (temperature : ℚ) (seed : Int) :
    Except GenError (List String) × Nat :=
  if temperature ≤ 0 ∨ max_seq_len < 1 then
    (.error .invalidConfiguration, 0)
  else
    let ids := (tokenize prompt).map v.encode
    let start := ids.getLastD (v.sos_id.getD v.unk_id)
    let sampled := decodeLoop M expf v.stop_id temperature max_seq_len.toNat
      start M.initHidden (RandomSource.ofSeed seed)
    (.ok ((stripStop v.stop_id sampled).map v.decode), sampled.length)

/-- Modelled from the spec: `generate` proper — the ordered sequence of
decoded string tokens (or a Generator error). -/
def generate {H : Type} (M : RecurrentLanguageModel H) (expf : ℚ → ℚ)
    (tokenize : String → List String) (v : Vocabulary)
    (prompt : String) (max_seq_len : Int) (temperature : ℚ) (seed : Int) :
    Except GenError (List String) :=
  (generateRun M expf tokenize v prompt max_seq_len temperature seed).1

/-! ## The web layer (`app/app.py`) -/

/-- The value of a digit string, most significant digit first. -/
def digitsVal : List Char → Nat → Nat
  | [], acc => acc
  | c :: rest, acc => digitsVal rest (10 * acc + (c.toNat - 48))

/-- A nonempty run of decimal digits parses to its value; anything else
fails. -/
def parseDigits (cs : List Char) : Option Nat :=
  if cs ≠ [] ∧ cs.all (fun c => c.isDigit) then some (digitsVal cs 0) else none

/-- Embedding of Python `int(s)`: an optional sign followed by digits.
A string that does not parse raises `ValueError` in Python; here it
returns `none`. -/
def pyInt (s : String) : Option Int :=
  match s.data with
  | '-' :: rest => (parseDigits rest).map (fun n => -(n : Int))
  | '+' :: rest => (parseDigits rest).map (fun n => (n : Int))
  | cs => (parseDigits cs).map (fun n => (n : Int))

/-- Embedding of Python `float(s)` restricted to plain decimal literals:
an optional sign, digits, and an optional fractional part.  A string that
does not parse raises `ValueError` in Python; here it returns `none`. -/
def pyFloat (s : String) : Option ℚ :=
  let sb : Bool × List Char :=
    match s.data with
    | '-' :: rest => (true, rest)
    | '+' :: rest => (false, rest)
    | cs => (false, cs)
  let ip := sb.2.takeWhile (fun c => c ≠ '.')
  let rest := sb.2.dropWhile (fun c => c ≠ '.')
  let mag : Option ℚ :=
    match rest with
    | [] => (parseDigits ip).map (fun n => (n : ℚ))
    | _ :: frac =>
      match parseDigits ip, parseDigits frac with
      | some n, some f => some (mkRat (n * 10 ^ frac.length + f) (10 ^ frac.length))
      | _, _ => none
  if sb.1 then mag.map (fun q => -q) else mag

/-- HTTP method of a request, as dispatched by `request.method` in `index`. -/
inductive Method where
  | GET
  | POST
deriving DecidableEq, Repr

/-- A request as `index` observes it: the method and the form fields. -/
structure Request where
  method : Method
  form : List (String × String)

/-- The possible outcomes of the `index` handler: a rendered `home.html`
page (with the optional generated output and the `show_text` flag), a
request-level error (missing field or Python `int`/`float` raising
`ValueError`, surfaced by Flask before `generate` runs), or a propagated
Generator error. -/
inductive Response where
  | page (template : String) (output : Option String) (show_text : String)
  | requestError
  | genFailure (e : GenError)

/-- The process-wide state of `app.py`, assembled once at module import:
the device, the vocabulary loaded from `./model/vocab`, the `basic_english`
tokenizer, the `LSTMLanguageModel` reconstructed from the checkpoint, and
the numeric engine's exponentiation. -/
structure AppState (H : Type) where
  device : String
  vocab : Vocabulary
  tokenizer : String → List String
  model : RecurrentLanguageModel H
  expf : ℚ → ℚ

/-- Embedding of the `index` route handler of `app.py`, instrumented with
the number of model evaluation steps performed while handling the request
(second component).  On POST it reads `prompt`, then parses `max_seq_len`,
`temperature` and `seed` in the order the source reads them — a missing
field or failed parse aborts the request before `generate` is reached —
then calls `generate` and renders `home.html` with the output tokens joined
by single spaces and `show_text="block"`.  On GET it renders `home.html`
with `show_text="none"`. -/
def indexRun {H : Type} (env : AppState H) (req : Request) : Response × Nat :=
  match req.method with
  | .GET => (.page "home.html" none "none", 0)
  | .POST =>
    match req.form.lookup "prompt" with
    | none => (.requestError, 0)
    | some prompt =>
      match (req.form.lookup "max_seq_len").bind pyInt with
      | none => (.requestError, 0)
      | some max_seq_len =>
        match (req.form.lookup "temperature").bind pyFloat with
        | none => (.requestError, 0)
        | some temperature =>
          match (req.form.lookup "seed").bind pyInt with
          | none => (.requestError, 0)
          | some seed =>
            match generateRun env.model env.expf env.tokenizer env.vocab
                prompt max_seq_len temperature seed with
            | (.error e, n) => (.genFailure e, n)
            | (.ok out, n) =>
              (.page "home.html" (some (String.intercalate " " out)) "block", n)

/-- The response of the `index` handler. -/
def index {H : Type} (env : AppState H) (req : Request) : Response :=
  (indexRun env req).1

/-- One request handled against the process state: `index` reads the
module-level `model`, `vocab`, `tokenizer` and `device` but contains no
assignment to them, so the state it hands to the next request is its own
input state. -/
def indexSt {H : Type} (env : AppState H) (req : Request) :
    Response × AppState H :=
  (index env req, env)

/-- A process run: the state produced by module import is threaded through
the handling of a list of requests, collecting the responses. -/
def processRun {H : Type} : AppState H → List Request → List Response × AppState H
  | env, [] => ([], env)
  | env, r :: rs =>
    let h := indexSt env r
    let rest := processRun h.2 rs
    (h.1 :: rest.1, rest.2)

/-! ## Concrete fixtures

The vocabulary, models and requests of the spec's concrete scenario examples
(§8), used to exercise the definitions on closed inputs. -/

/-- The example vocabulary `{"the":0, "cat":1, "sat":2, "<unk>":3, "<stop>":4}`. -/
def vocabW : Vocabulary :=
  ⟨[("the", 0), ("cat", 1), ("sat", 2), ("<unk>", 3), ("<stop>", 4)],
   ["the", "cat", "sat", "<unk>", "<stop>"], 3, 4, none⟩

/-- Splitting a character list into space-separated words; `acc` holds the
characters of the current word, in reverse. -/
def splitWordsAux : List Char → List Char → List String
  | [], acc => if acc.isEmpty then [] else [String.mk acc.reverse]
  | c :: rest, acc =>
    if c = ' ' then
      if acc.isEmpty then splitWordsAux rest []
      else String.mk acc.reverse :: splitWordsAux rest []
    else splitWordsAux rest (c :: acc)

/-- A whitespace tokenizer standing in for `basic_english`. -/
def tokenizeW (s : String) : List String :=
  splitWordsAux s.data []

/-- A model that deterministically outputs logits favoring id 2 ("sat"). -/
def modelW : RecurrentLanguageModel Unit :=
  ⟨(), fun _ _ => ([0, 0, 10, 0, 0], ())⟩

/-- A model that deterministically outputs logits favoring id 4 ("<stop>"). -/
def modelStopW : RecurrentLanguageModel Unit :=
  ⟨(), fun _ _ => ([0, 0, 0, 0, 10], ())⟩

/-- A step-function exponentiation: all the normalized mass lands on the
dominant logit, so the sampled index is independent of the uniform draw. -/
def expfW : ℚ → ℚ := fun x => if 5 ≤ x then 1 else 0

/-- The process state holding the concrete fixtures. -/
def envW : AppState Unit := ⟨"cpu", vocabW, tokenizeW, modelW, expfW⟩

/-- A well-formed POST request against the fixtures. -/
def reqW : Request :=
  ⟨.POST, [("prompt", "the cat"), ("max_seq_len", "3"),
           ("temperature", "1.0"), ("seed", "42")]⟩

/-! ## Validation of the explicit rational arithmetic -/

/-- `qadd` is rational addition. -/
theorem qadd_eq_add (a b : ℚ) : qadd a b = a + b := by
  have hc : ((a.den : ℚ)) ≠ 0 := by exact_mod_cast a.den_nz
  have hd : ((b.den : ℚ)) ≠ 0 := by exact_mod_cast b.den_nz
  have hA := (div_eq_iff hc).mp (Rat.num_div_den a)
  have hB := (div_eq_iff hd).mp (Rat.num_div_den b)
  unfold qadd
  rw [Rat.mkRat_eq_div]
  push_cast
  rw [div_eq_iff (mul_ne_zero hc hd), hA, hB]
  ring

/-- `qdiv` is rational division (with the `x / 0 = 0` convention). -/
theorem qdiv_eq_div (a b : ℚ) : qdiv a b = a / b := by
  have hc : ((a.den : ℚ)) ≠ 0 := by exact_mod_cast a.den_nz
  have hd : ((b.den : ℚ)) ≠ 0 := by exact_mod_cast b.den_nz
  have hA := (div_eq_iff hc).mp (Rat.num_div_den a)
  have hB := (div_eq_iff hd).mp (Rat.num_div_den b)
  rcases eq_or_ne b.num 0 with h0 | h0
  · have hb : b = 0 := by rwa [Rat.num_eq_zero] at h0
    have hz : (0 : ℚ).num = 0 := rfl
    rw [hb, div_zero]
    unfold qdiv
    rw [hz]
    simp [Rat.mkRat_eq_div]
  · have hbne : b ≠ 0 := fun hh => h0 (by rw [hh]; rfl)
    have hBq : ((b.num : ℚ)) ≠ 0 := by exact_mod_cast h0
    unfold qdiv
    rcases lt_or_ge b.num 0 with h | h
    · rw [if_pos h, Rat.mkRat_eq_div]
      have hna : ((b.num.natAbs : ℚ)) = -(b.num : ℚ) := by
        rw [Int.cast_natAbs]
        exact_mod_cast abs_of_neg h
      push_cast [hna]
      have hden : (a.den : ℚ) * -(b.num : ℚ) ≠ 0 := mul_ne_zero hc (neg_ne_zero.mpr hBq)
      rw [div_eq_div_iff hden hbne, hA, hB]
      ring
    · rw [if_neg (not_lt.mpr h), Rat.mkRat_eq_div]
      have hna : ((b.num.natAbs : ℚ)) = (b.num : ℚ) := by
        rw [Int.cast_natAbs]
        exact_mod_cast abs_of_nonneg h
      push_cast [hna]
      have hden : (a.den : ℚ) * (b.num : ℚ) ≠ 0 := mul_ne_zero hc hBq
      rw [div_eq_div_iff hden hbne, hA, hB]
      ring

/-- `qsum` is `List.sum`. -/
theorem qsum_eq_sum (l : List ℚ) : qsum l = l.sum := by
  induction l with
  | nil => rfl
  | cons a l ih =>
    rw [List.sum_cons, ← ih]
    unfold qsum
    rw [List.foldr_cons, qadd_eq_add]

/-! ## Helper lemmas -/

/-- The decode loop performs at most `fuel` iterations, drawing one id per
iteration. -/
theorem decodeLoop_length_le {H : Type} (M : RecurrentLanguageModel H)
    (expf : ℚ → ℚ) (stopId : Nat) (temperature : ℚ) :
    ∀ (fuel lastTok : Nat) (h : H) (rng : RandomSource),
      (decodeLoop M expf stopId temperature fuel lastTok h rng).length ≤ fuel := by
  intro fuel
  induction fuel with
  | zero => intro lastTok h rng; simp [decodeLoop]
  | succ n ih =>
    intro lastTok h rng
    rw [decodeLoop]
    split
    · simp
    · simpa using ih _ _ _

/-- Stripping a trailing stop id never lengthens the list. -/
theorem stripStop_length_le (stopId : Nat) (ids : List Nat) :
    (stripStop stopId ids).length ≤ ids.length := by
  unfold stripStop
  split
  · exact le_trans (le_of_eq (List.length_dropLast ids)) (Nat.sub_le _ _)
  · exact le_refl _

/-- On a valid configuration, `generateRun` succeeds with the decoded
stripped sample and counts one model step per drawn id. -/
theorem generateRun_valid {H : Type} (M : RecurrentLanguageModel H)
    (expf : ℚ → ℚ) (tokenize : String → List String) (v : Vocabulary)
    (prompt : String) (max_seq_len : Int) (temperature : ℚ) (seed : Int)
    (hT : 0 < temperature) (hn : 1 ≤ max_seq_len) :
    generateRun M expf tokenize v prompt max_seq_len temperature seed =
      (.ok ((stripStop v.stop_id
        (decodeLoop M expf v.stop_id temperature max_seq_len.toNat
          (((tokenize prompt).map v.encode).getLastD (v.sos_id.getD v.unk_id))
          M.initHidden (RandomSource.ofSeed seed))).map v.decode),
       (decodeLoop M expf v.stop_id temperature max_seq_len.toNat
          (((tokenize prompt).map v.encode).getLastD (v.sos_id.getD v.unk_id))
          M.initHidden (RandomSource.ofSeed seed)).length) := by
  have hcond : ¬(temperature ≤ 0 ∨ max_seq_len < 1) := by
    push_neg
    exact ⟨hT, hn⟩
  unfold generateRun
  rw [if_neg hcond]

/-- The inverse-CDF scan, started at cumulative mass `acc ≤ u` with enough
total mass left to exceed `u`, lands strictly inside the list, on the first
offset whose cumulative sum exceeds `u`. -/
theorem sampleFrom_spec (u : ℚ) :
    ∀ (probs : List ℚ) (acc : ℚ), acc ≤ u → u < acc + probs.sum →
      sampleFrom u probs acc < probs.length ∧
      u < acc + (probs.take (sampleFrom u probs acc + 1)).sum ∧
      ∀ j < sampleFrom u probs acc, acc + (probs.take (j + 1)).sum ≤ u := by
  intro probs
  induction probs with
  | nil =>
    intro acc hacc hlt
    rw [List.sum_nil, add_zero] at hlt
    exact absurd hlt (not_lt.mpr hacc)
  | cons p rest ih =>
    intro acc hacc hlt
    simp only [sampleFrom, qadd_eq_add]
    by_cases hc : u < acc + p
    · rw [if_pos hc]
      refine ⟨Nat.succ_pos _, ?_, ?_⟩
      · simpa [List.take_succ_cons, List.sum_cons] using hc
      · intro j hj
        exact absurd hj (Nat.not_lt_zero j)
    · rw [if_neg hc]
      push_neg at hc
      have hlt' : u < (acc + p) + rest.sum := by
        rw [List.sum_cons] at hlt
        linarith
      obtain ⟨h1, h2, h3⟩ := ih (acc + p) hc hlt'
      refine ⟨?_, ?_, ?_⟩
      · simpa [List.length_cons] using Nat.succ_lt_succ h1
      · rw [List.take_succ_cons, List.sum_cons]
        linarith
      · intro j hj
        cases j with
        | zero =>
          simpa [List.take_succ_cons, List.sum_cons] using hc
        | succ k =>
          have hk : k < sampleFrom u rest (acc + p) := Nat.lt_of_succ_lt_succ hj
          have := h3 k hk
          rw [List.take_succ_cons, List.sum_cons]
          linarith

/-- The responses of a process run are each computed against the boot
state. -/
theorem processRun_fst {H : Type} (env : AppState H) (reqs : List Request) :
    (processRun env reqs).1 = reqs.map (index env) := by
  induction reqs with
  | nil => rfl
  | cons r rs ih => simp [processRun, indexSt, ih]

/-- A process run returns the boot state unchanged. -/
theorem processRun_snd {H : Type} (env : AppState H) (reqs : List Request) :
    (processRun env reqs).2 = env := by
  induction reqs with
  | nil => rfl
  | cons r rs ih => simp [processRun, indexSt, ih]

/-! ## Claims -/

/-- C1: every call to `generate` with `temperature <= 0` or `max_seq_len < 1`
fails with an InvalidConfiguration error, and the failure is reported before
any model evaluation step occurs (the instrumented step count is zero). -/
theorem generate_invalid_config_fails_fast {H : Type}
    (M : RecurrentLanguageModel H) (expf : ℚ → ℚ)
    (tokenize : String → List String) (v : Vocabulary) (prompt : String)
    (max_seq_len : Int) (temperature : ℚ) (seed : Int)
    (h : temperature ≤ 0 ∨ max_seq_len < 1) :
    generateRun M expf tokenize v prompt max_seq_len temperature seed
      = (.error .invalidConfiguration, 0) := by
  unfold generateRun
  rw [if_pos h]

/-- Witness for C1 at `temperature = 0`, `max_seq_len = 3`. -/
theorem generate_invalid_config_fails_fast_witness :
    ((0 : ℚ) ≤ 0 ∨ (3 : Int) < 1) ∧
    generateRun modelW expfW tokenizeW vocabW "the cat" 3 0 42
      = (.error .invalidConfiguration, 0) :=
  ⟨Or.inl (le_refl 0),
   generate_invalid_config_fails_fast modelW expfW tokenizeW vocabW
     "the cat" 3 0 42 (Or.inl (le_refl 0))⟩

/-- C2: for every valid input (`max_seq_len >= 1`, `temperature > 0`), the
sequence of string tokens returned by `generate` has length at most
`max_seq_len`. -/
theorem generate_length_bound {H : Type}
    (M : RecurrentLanguageModel H) (expf : ℚ → ℚ)
    (tokenize : String → List String) (v : Vocabulary) (prompt : String)
    (max_seq_len : Int) (temperature : ℚ) (seed : Int)
    (hT : 0 < temperature) (hn : 1 ≤ max_seq_len) :
    ∃ out, generate M expf tokenize v prompt max_seq_len temperature seed
        = .ok out ∧ (out.length : Int) ≤ max_seq_len := by
  rw [generate,
    generateRun_valid M expf tokenize v prompt max_seq_len temperature seed hT hn]
  refine ⟨_, rfl, ?_⟩
  rw [List.length_map]
  have h1 := stripStop_length_le v.stop_id
    (decodeLoop M expf v.stop_id temperature max_seq_len.toNat
      (((tokenize prompt).map v.encode).getLastD (v.sos_id.getD v.unk_id))
      M.initHidden (RandomSource.ofSeed seed))
  have h2 := decodeLoop_length_le M expf v.stop_id temperature max_seq_len.toNat
    (((tokenize prompt).map v.encode).getLastD (v.sos_id.getD v.unk_id))
    M.initHidden (RandomSource.ofSeed seed)
  have h3 : (max_seq_len.toNat : Int) = max_seq_len :=
    Int.toNat_of_nonneg (by linarith)
  calc ((stripStop v.stop_id
      (decodeLoop M expf v.stop_id temperature max_seq_len.toNat
        (((tokenize prompt).map v.encode).getLastD (v.sos_id.getD v.unk_id))
        M.initHidden (RandomSource.ofSeed seed))).length : Int)
      ≤ (max_seq_len.toNat : Int) := by exact_mod_cast le_trans h1 h2
    _ = max_seq_len := h3

/-- Witness for C2 at the concrete fixtures. -/
theorem generate_length_bound_witness :
    (0 : ℚ) < 1 ∧ (1 : Int) ≤ 3 ∧
    ∃ out, generate modelW expfW tokenizeW vocabW "the cat" 3 1 42
        = .ok out ∧ (out.length : Int) ≤ 3 :=
  ⟨by decide, by decide,
   generate_length_bound modelW expfW tokenizeW vocabW "the cat" 3 1 42
     (by decide) (by decide)⟩

/-- C3: `generate` is a deterministic function of its arguments: two calls on
the same fixed tuple against the same model and vocabulary return identical
output sequences, and — the random source and hidden state being call-local —
the response a request gets does not depend on the requests handled around
it. -/
theorem generate_deterministic {H : Type}
    (M : RecurrentLanguageModel H) (expf : ℚ → ℚ)
    (tokenize : String → List String) (v : Vocabulary) (prompt : String)
    (max_seq_len : Int) (temperature : ℚ) (seed : Int)
    (env : AppState H) (rs1 rs2 : List Request) (req : Request) :
    generate M expf tokenize v prompt max_seq_len temperature seed
      = generate M expf tokenize v prompt max_seq_len temperature seed ∧
    (processRun env (rs1 ++ req :: rs2)).1
      = rs1.map (index env) ++ index env req :: rs2.map (index env) := by
  refine ⟨rfl, ?_⟩
  rw [processRun_fst]
  simp

/-- C4: whenever the decode loop samples the stop-id, the loop terminates
immediately at that step — the drawn ids are some stop-free prefix followed
by the single stop draw, strictly fewer than `max_seq_len` output tokens are
produced, and the stop id is excluded from the output. -/
theorem decode_loop_early_stop {H : Type}
    (M : RecurrentLanguageModel H) (expf : ℚ → ℚ) (v : Vocabulary)
    (temperature : ℚ) (fuel lastTok : Nat) (h0 : H) (rng : RandomSource)
    (hmem : v.stop_id ∈ decodeLoop M expf v.stop_id temperature fuel lastTok h0 rng) :
    ∃ front,
      decodeLoop M expf v.stop_id temperature fuel lastTok h0 rng
        = front ++ [v.stop_id] ∧
      v.stop_id ∉ front ∧ front.length < fuel ∧
      stripStop v.stop_id
        (decodeLoop M expf v.stop_id temperature fuel lastTok h0 rng) = front := by
  induction fuel generalizing lastTok h0 rng with
  | zero =>
    rw [decodeLoop] at hmem
    exact absurd hmem (List.not_mem_nil _)
  | succ n ih =>
    rw [decodeLoop] at hmem ⊢
    by_cases ht : sample (softmax expf ((M.step lastTok h0).1.map
        (fun x => qdiv x temperature))) (rng.next).1 = v.stop_id
    · rw [if_pos ht] at hmem ⊢
      refine ⟨[], by simp [ht], List.not_mem_nil _, Nat.succ_pos n, ?_⟩
      simp [stripStop, ht]
    · rw [if_neg ht] at hmem ⊢
      rcases List.mem_cons.mp hmem with heq | htail
      · exact absurd heq.symm ht
      · obtain ⟨f, he, hnmem, hlen, _⟩ := ih _ _ _ htail
        refine ⟨sample (softmax expf ((M.step lastTok h0).1.map
            (fun x => qdiv x temperature))) (rng.next).1 :: f, ?_, ?_, ?_, ?_⟩
        · rw [he, List.cons_append]
        · intro hc
          rcases List.mem_cons.mp hc with heq2 | hmem2
          · exact ht heq2.symm
          · exact hnmem hmem2
        · simpa using Nat.succ_lt_succ hlen
        · rw [he, ← List.cons_append, stripStop,
            if_pos (List.getLast?_concat _), List.dropLast_concat]

/-- Witness for C4: against `modelStopW` the first draw is the stop id 4,
so the run is `[] ++ [4]` with an empty output. -/
theorem decode_loop_early_stop_witness :
    vocabW.stop_id ∈ decodeLoop modelStopW expfW vocabW.stop_id 1 3 1 ()
      (RandomSource.ofSeed 42) ∧
    ∃ front,
      decodeLoop modelStopW expfW vocabW.stop_id 1 3 1 ()
        (RandomSource.ofSeed 42) = front ++ [vocabW.stop_id] ∧
      vocabW.stop_id ∉ front ∧ front.length < 3 ∧
      stripStop vocabW.stop_id
        (decodeLoop modelStopW expfW vocabW.stop_id 1 3 1 ()
          (RandomSource.ofSeed 42)) = front :=
  ⟨by decide,
   decode_loop_early_stop modelStopW expfW vocabW 1 3 1 ()
     (RandomSource.ofSeed 42) (by decide)⟩

/-- C5: a prompt token absent from the vocabulary encodes to the reserved
unknown-id, the unknown-id therefore appears in the encoded prompt, and
`generate` still succeeds — the unknown token raises no error. -/
theorem unknown_token_encodes_to_unk {H : Type}
    (M : RecurrentLanguageModel H) (expf : ℚ → ℚ)
    (tokenize : String → List String) (v : Vocabulary)
    (prompt tokStr : String) (max_seq_len : Int) (temperature : ℚ) (seed : Int)
    (habs : v.stoi.lookup tokStr = none)
    (hmem : tokStr ∈ tokenize prompt)
    (hT : 0 < temperature) (hn : 1 ≤ max_seq_len) :
    v.encode tokStr = v.unk_id ∧
    v.unk_id ∈ (tokenize prompt).map v.encode ∧
    ∃ out, generate M expf tokenize v prompt max_seq_len temperature seed
      = .ok out := by
  have henc : v.encode tokStr = v.unk_id := by
    rw [Vocabulary.encode, habs]
    rfl
  refine ⟨henc, ?_, ?_⟩
  · exact henc ▸ List.mem_map_of_mem v.encode hmem
  · rw [generate, generateRun_valid M expf tokenize v prompt max_seq_len
      temperature seed hT hn]
    exact ⟨_, rfl⟩

/-- Witness for C5: "dog" is not in the fixture vocabulary. -/
theorem unknown_token_encodes_to_unk_witness :
    vocabW.stoi.lookup "dog" = none ∧ "dog" ∈ tokenizeW "dog sat" ∧
    (0 : ℚ) < 1 ∧ (1 : Int) ≤ 3 ∧
    (vocabW.encode "dog" = vocabW.unk_id ∧
     vocabW.unk_id ∈ (tokenizeW "dog sat").map vocabW.encode ∧
     ∃ out, generate modelW expfW tokenizeW vocabW "dog sat" 3 1 42 = .ok out) :=
  ⟨by decide, by decide, by decide, by decide,
   unknown_token_encodes_to_unk modelW expfW tokenizeW vocabW "dog sat" "dog"
     3 1 42 (by decide) (by decide) (by decide) (by decide)⟩

/-- C6: for every probability sequence of non-negative rationals summing
to 1 and every uniform draw `u` in `[0,1)`, the Sampler lands inside the
sequence on the smallest index whose cumulative probability (accumulated in
index order) exceeds `u`. -/
theorem sample_smallest_index_exceeding (probs : List ℚ) (u : ℚ)
    (hnn : ∀ p ∈ probs, 0 ≤ p) (hsum : probs.sum = 1)
    (h0 : 0 ≤ u) (h1 : u < 1) :
    sample probs u < probs.length ∧
    u < cumsum probs (sample probs u) ∧
    ∀ j < sample probs u, cumsum probs j ≤ u := by
  obtain ⟨hlen, hcum, hmin⟩ :=
    sampleFrom_spec u probs 0 h0 (by rw [hsum, zero_add]; exact h1)
  rw [sample, cumsum]
  refine ⟨hlen, ?_, ?_⟩
  · rw [zero_add] at hcum
    exact hcum
  · intro j hj
    have := hmin j hj
    rw [zero_add] at this
    exact this

/-- Witness for C6: `probs = [1/2, 1/4, 1/4]`, `u = 3/5` → index 1, whose
cumulative sum 3/4 is the first to exceed `u`. -/
theorem sample_smallest_index_exceeding_witness :
    (∀ p ∈ [mkRat 1 2, mkRat 1 4, mkRat 1 4], (0 : ℚ) ≤ p) ∧
    ([mkRat 1 2, mkRat 1 4, mkRat 1 4].sum = 1) ∧
    (0 : ℚ) ≤ mkRat 3 5 ∧ mkRat 3 5 < 1 ∧
    (sample [mkRat 1 2, mkRat 1 4, mkRat 1 4] (mkRat 3 5)
        < [mkRat 1 2, mkRat 1 4, mkRat 1 4].length ∧
     mkRat 3 5 < cumsum [mkRat 1 2, mkRat 1 4, mkRat 1 4]
        (sample [mkRat 1 2, mkRat 1 4, mkRat 1 4] (mkRat 3 5)) ∧
     ∀ j < sample [mkRat 1 2, mkRat 1 4, mkRat 1 4] (mkRat 3 5),
        cumsum [mkRat 1 2, mkRat 1 4, mkRat 1 4] j ≤ mkRat 3 5) :=
  have hsum : ([mkRat 1 2, mkRat 1 4, mkRat 1 4] : List ℚ).sum = 1 := by
    rw [← qsum_eq_sum]
    decide
  ⟨by decide, hsum, by decide, by decide,
   sample_smallest_index_exceeding [mkRat 1 2, mkRat 1 4, mkRat 1 4]
     (mkRat 3 5) (by decide) hsum (by decide) (by decide)⟩

/-- C7: a POST request in which one of the numeric form fields does not
parse as a number is rejected at the request boundary — the handler returns
a request-level error and `generate` is never invoked (zero model steps
occur for the request). -/
theorem malformed_numeric_rejected_before_generate {H : Type}
    (env : AppState H) (form : List (String × String))
    (h : (∃ s, form.lookup "max_seq_len" = some s ∧ pyInt s = none) ∨
         (∃ s, form.lookup "temperature" = some s ∧ pyFloat s = none) ∨
         (∃ s, form.lookup "seed" = some s ∧ pyInt s = none)) :
    indexRun env ⟨Method.POST, form⟩ = (Response.requestError, 0) := by
  cases hp : form.lookup "prompt" with
  | none => simp [indexRun, hp]
  | some prompt =>
    rcases h with ⟨s, hs, hparse⟩ | ⟨s, hs, hparse⟩ | ⟨s, hs, hparse⟩
    · have hbind : (form.lookup "max_seq_len").bind pyInt = none := by
        rw [hs]
        exact hparse
      simp [indexRun, hp, hbind]
    · have hbind : (form.lookup "temperature").bind pyFloat = none := by
        rw [hs]
        exact hparse
      cases hm : (form.lookup "max_seq_len").bind pyInt with
      | none => simp [indexRun, hp, hm]
      | some n => simp [indexRun, hp, hm, hbind]
    · have hbind : (form.lookup "seed").bind pyInt = none := by
        rw [hs]
        exact hparse
      cases hm : (form.lookup "max_seq_len").bind pyInt with
      | none => simp [indexRun, hp, hm]
      | some n =>
        cases htp : (form.lookup "temperature").bind pyFloat with
        | none => simp [indexRun, hp, hm, htp]
        | some T => simp [indexRun, hp, hm, htp, hbind]

/-- Witness for C7: `temperature = "abc"` does not parse. -/
theorem malformed_numeric_rejected_before_generate_witness :
    ((∃ s, ([("prompt", "hi"), ("max_seq_len", "3"), ("temperature", "abc"),
        ("seed", "42")] : List (String × String)).lookup "max_seq_len" = some s ∧
        pyInt s = none) ∨
     (∃ s, ([("prompt", "hi"), ("max_seq_len", "3"), ("temperature", "abc"),
        ("seed", "42")] : List (String × String)).lookup "temperature" = some s ∧
        pyFloat s = none) ∨
     (∃ s, ([("prompt", "hi"), ("max_seq_len", "3"), ("temperature", "abc"),
        ("seed", "42")] : List (String × String)).lookup "seed" = some s ∧
        pyInt s = none)) ∧
    indexRun envW ⟨Method.POST,
      [("prompt", "hi"), ("max_seq_len", "3"), ("temperature", "abc"),
       ("seed", "42")]⟩ = (Response.requestError, 0) :=
  have h : _ := Or.inr (Or.inl ⟨"abc", by rfl, by rfl⟩)
  ⟨h, malformed_numeric_rejected_before_generate envW _ h⟩

/-- C8: on a successful POST request, the displayed result is exactly the
ordered output sequence of `generate` joined with a single space between
consecutive tokens, rendered on `home.html` with `show_text="block"`. -/
theorem post_success_output_joined {H : Type}
    (env : AppState H) (form : List (String × String))
    (prompt nS tS sS : String) (n : Int) (T : ℚ) (s : Int)
    (out : List String) (k : Nat)
    (hp : form.lookup "prompt" = some prompt)
    (hn : form.lookup "max_seq_len" = some nS) (hn2 : pyInt nS = some n)
    (ht : form.lookup "temperature" = some tS) (ht2 : pyFloat tS = some T)
    (hs : form.lookup "seed" = some sS) (hs2 : pyInt sS = some s)
    (hg : generateRun env.model env.expf env.tokenizer env.vocab prompt n T s
      = (.ok out, k)) :
    index env ⟨Method.POST, form⟩
      = .page "home.html" (some (String.intercalate " " out)) "block" := by
  unfold index indexRun
  simp [hp, hn, hn2, ht, ht2, hs, hs2, hg]

/-- Witness for C8: the spec's concrete scenario — `prompt="the cat"`,
`max_seq_len=3`, a model favoring "sat" — displays "sat" joined three
times by single spaces. -/
theorem post_success_output_joined_witness :
    ((("prompt", "the cat") :: ("max_seq_len", "3") :: ("temperature", "1.0")
        :: ("seed", "42") :: []).lookup "prompt" = some "the cat") ∧
    generateRun envW.model envW.expf envW.tokenizer envW.vocab "the cat" 3 1 42
      = (.ok ["sat", "sat", "sat"], 3) ∧
    index envW reqW
      = .page "home.html"
          (some (String.intercalate " " ["sat", "sat", "sat"])) "block" :=
  ⟨by rfl, by rfl,
   post_success_output_joined envW reqW.form "the cat" "3" "1.0" "42" 3 1 42
     ["sat", "sat", "sat"] 3 (by rfl) (by rfl) (by rfl) (by rfl) (by rfl)
     (by rfl) (by rfl) (by rfl)⟩

/-- C9: the process state assembled once at startup is handed unchanged
through every request — no request-handling call reassigns or mutates the
process-wide model, vocabulary, tokenizer or device — and, consequently,
every request in a run is handled against the original boot state. -/
theorem shared_state_loaded_once_never_mutated {H : Type}
    (env : AppState H) (reqs : List Request) :
    (processRun env reqs).2 = env ∧
    (processRun env reqs).1 = reqs.map (index env) :=
  ⟨processRun_snd env reqs, processRun_fst env reqs⟩

/-- C10: a GET request renders the home page with `show_text="none"`,
independently of whatever form fields are present (none is read), and
performs zero model steps — `generate` is never invoked on GET. -/
theorem get_renders_home_without_generate {H : Type}
    (env : AppState H) (form : List (String × String)) :
    indexRun env ⟨Method.GET, form⟩ = (Response.page "home.html" none "none", 0) :=
  rfl
